import Mathlib

/-!
Verification development for the getmatter-mcp-server repository.

The definitions below are shallow embeddings of the TypeScript source:

* `src/src/matter-api.ts` — `MatterClient.request`, `MatterClient.refreshAccessToken`,
  `MatterClient.getArticles`, `MatterClient.getArticle`;
* `src/src/server.ts` — the `matter_get_article` tool case of `createMatterServer`;
* `src/api/oauth/authorize.ts` — the in-page `pollForTokens` loop and its
  authorization-code encoding;
* `src/api/oauth/token.ts` — the token-endpoint exchange;
* `src/api/mcp.ts` — `getTokensFromRequest` (Bearer branch).

Network effects are modelled by passing the responses of the relevant HTTP calls as
explicit arguments (a response oracle); control flow, state mutation and error paths
follow the source line by line.  Potentially non-terminating `while` loops are given
an explicit fuel parameter; a result of `none` means the loop performed `fuel`
iterations without terminating.
-/

namespace Matter

/-- The credential pair held by a `MatterClient` (interface `MatterTokens`). -/
structure MatterTokens where
  accessToken : String
  refreshToken : String
deriving DecidableEq, Repr

/-- A provider HTTP response as seen by `MatterClient.request`: numeric status,
`statusText`, and the parsed JSON body (abstracted to a string). -/
structure HttpResponse where
  status : Nat
  statusText : String
  body : String
deriving DecidableEq, Repr

/-- The WHATWG `Response.ok` flag: status in the range 200–299. -/
def httpOk (status : Nat) : Bool := decide (200 ≤ status) && decide (status < 300)

/-- `Response.ok` of a modelled response. -/
def HttpResponse.ok (r : HttpResponse) : Bool := httpOk r.status

/-- The distinct errors thrown by `MatterClient` (class `MatterAPIError`), one
constructor per `throw new MatterAPIError(...)` site in `src/src/matter-api.ts`'s
`request` method, carrying the same data the source attaches. -/
inductive MatterError where
  /-- non-2xx, non-401 first response: `"Request failed: " + statusText` with status and body -/
  | requestFailed (statusText : String) (status : Nat) (body : Option String)
  /-- refresh did not succeed: `"Authentication failed"`, status 401 -/
  | authenticationFailed
  /-- retry after refresh not ok: `"Request failed after token refresh: " + statusText` -/
  | failedAfterRefresh (statusText : String) (status : Nat)
deriving DecidableEq, Repr

/-- The `message` field of the thrown `MatterAPIError`, as built in the source. -/
def MatterError.message : MatterError → String
  | .requestFailed st _ _ => "Request failed: " ++ st
  | .authenticationFailed => "Authentication failed"
  | .failedAfterRefresh st _ => "Request failed after token refresh: " ++ st

/-- Classification of errors per the spec's taxonomy (§7): the two post-401 failure
paths are what the spec calls `AuthExpired`; the ordinary non-2xx path is
`RequestFailed`. -/
def MatterError.isAuthExpired : MatterError → Bool
  | .authenticationFailed => true
  | .failedAfterRefresh _ _ => true
  | .requestFailed _ _ _ => false

/-- The response of the `POST /token/refresh/` call: status plus the parsed
`TokenRefreshResponse` body fields. -/
structure RefreshResponse where
  status : Nat
  access_token : String
  refresh_token : String
deriving DecidableEq, Repr

/-- `MatterClient.refreshAccessToken` (src/src/matter-api.ts lines 248–277).

`resp` is the refresh endpoint's response; `none` models the fetch (or body parse)
throwing, which the surrounding `try`/`catch` turns into `false`.  The registered
observer `onTokenRefresh` is modelled as a function returning `true` when the
callback throws; note that in the source the callback runs *inside* the same
`try` block, after the new tokens have been assigned to `this`.

Returns the boolean result together with the client's token state afterwards. -/
def refreshAccessToken (st : MatterTokens) (resp : Option RefreshResponse)
    (onTokenRefresh : Option (MatterTokens → Bool)) : Bool × MatterTokens :=
  match resp with
  | none => (false, st)
  | some r =>
    if !httpOk r.status then (false, st)
    else
      let st2 : MatterTokens := ⟨r.access_token, r.refresh_token⟩
      match onTokenRefresh with
      | none => (true, st2)
      | some cb => if cb st2 then (false, st2) else (true, st2)

/-- Either outcome of one `request` invocation: the parsed body on success, or the
thrown `MatterAPIError`. -/
inductive RequestResult where
  | success (body : String)
  | failure (e : MatterError)
deriving DecidableEq, Repr

/-- `RequestResult.isAuthExpired`: lifted error classification. -/
def RequestResult.isAuthExpired : RequestResult → Bool
  | .success _ => false
  | .failure e => e.isAuthExpired

/-- Instrumented outcome of `MatterClient.request`: the result, how many times the
original endpoint was fetched, how many refresh calls were made, the bearer token
attached to each fetch of the original endpoint (in order), and the client's token
state afterwards. -/
structure RequestOutcome where
  result : RequestResult
  fetches : Nat
  refreshCalls : Nat
  authHeaders : List String
  finalTokens : MatterTokens
deriving DecidableEq, Repr

/-- `MatterClient.request` (src/src/matter-api.ts lines 193–246).

`first` is the response to the initial fetch of the endpoint, `retry` the response
the endpoint would give to a second fetch, `refreshResp`/`onTokenRefresh` feed
`refreshAccessToken`.  Control flow mirrors the source: on a 401 first response the
client refreshes once; if that reports success it retries once with the updated
access token; otherwise it throws `"Authentication failed"`.  A non-2xx, non-401
first response throws `"Request failed: ..."` with the response body attached. -/
def request (st : MatterTokens) (first retry : HttpResponse)
    (refreshResp : Option RefreshResponse)
    (onTokenRefresh : Option (MatterTokens → Bool)) : RequestOutcome :=
  if first.status = 401 then
    let rf := refreshAccessToken st refreshResp onTokenRefresh
    if rf.1 then
      if !retry.ok then
        ⟨.failure (.failedAfterRefresh retry.statusText retry.status),
          2, 1, [st.accessToken, rf.2.accessToken], rf.2⟩
      else
        ⟨.success retry.body, 2, 1, [st.accessToken, rf.2.accessToken], rf.2⟩
    else
      ⟨.failure .authenticationFailed, 1, 1, [st.accessToken], rf.2⟩
  else if !first.ok then
    ⟨.failure (.requestFailed first.statusText first.status (some first.body)),
      1, 0, [st.accessToken], st⟩
  else
    ⟨.success first.body, 1, 0, [st.accessToken], st⟩

/-- Whitespace skipped by JS `parseInt` before reading the number. -/
def jsSpace (c : Char) : Bool :=
  c == ' ' || c == '\t' || c == '\n' || c == '\r' || c == '\x0b' || c == '\x0c'

/-- Value of a (non-empty, all-digit) decimal digit sequence. -/
def digitsToNat (ds : List Char) : Nat :=
  ds.foldl (fun acc c => acc * 10 + (c.toNat - 48)) 0

/-- Longest digit run at the head of the input, as consumed by `parseInt`. -/
def leadingDigits (cs : List Char) : List Char := cs.takeWhile Char.isDigit

/-- Reads the longest digit run at the head; empty run means NaN (`none`). -/
def parseNatFrom (cs : List Char) : Option Nat :=
  let ds := leadingDigits cs
  if ds = [] then none else some (digitsToNat ds)

/-- JS `parseInt(s, 10)` as used in `MatterClient.getArticle` (line 343): skip
leading whitespace, optional sign, then the longest decimal-digit run; `NaN`
(no digits) is modelled as `none`. -/
def parseIntBase10 (s : String) : Option Int :=
  match s.data.dropWhile jsSpace with
  | [] => none
  | c :: rest =>
    if c = '-' then (parseNatFrom rest).map (fun n => -(n : Int))
    else if c = '+' then (parseNatFrom rest).map (fun n => (n : Int))
    else (parseNatFrom (c :: rest)).map (fun n => (n : Int))

/-- A feed entry, restricted to the two identifier fields the pagination and
lookup logic reads: `entry.id` (a string) and `entry.content.id` (a number). -/
structure FeedEntry where
  id : String
  contentId : Int
deriving DecidableEq, Repr

instance : Inhabited FeedEntry := ⟨⟨"", 0⟩⟩

/-- One `FeedResponse` page: the `feed` items, the `next` cursor (null = `none`)
and the optional `queue_count` / `archive_count` fields.  The unused pass-through
fields (`id`, `previous`) are omitted. -/
structure FeedPage where
  feed : List FeedEntry
  next : Option String
  queueCount : Option Nat
  archiveCount : Option Nat
deriving DecidableEq, Repr

instance : Inhabited FeedPage := ⟨⟨[], none, none, none⟩⟩

/-- The per-entry identifier comparison of `MatterClient.getArticle` (lines
349–354): `entry.id === articleId || entry.content.id === numericId ||
String(entry.content.id) === articleId`, with `NaN` never equal to anything. -/
def entryMatches (articleId : String) (numericId : Option Int) (e : FeedEntry) : Bool :=
  e.id == articleId ||
  (match numericId with
   | some n => e.contentId == n
   | none => false) ||
  toString e.contentId == articleId

/-- JS `options?.x || d`: an absent or zero (falsy) value falls back to `d`. -/
def jsOrDefault (o : Option Nat) (d : Nat) : Nat :=
  match o with
  | none => d
  | some n => if n = 0 then d else n

/-- The record returned by `MatterClient.getArticles`. -/
structure GetArticlesResult where
  articles : List FeedEntry
  nextUrl : Option String
  queueCount : Option Nat
  archiveCount : Option Nat
deriving DecidableEq, Repr

/-- The `while` loop of `MatterClient.getArticles` (lines 299–322).  `provider`
maps a page number to that request's outcome (a thrown `MatterAPIError` in the
loop propagates out).  The extra `fetched` component counts pages requested, and
the outer `Option` is loop fuel: `none` means the loop ran `fuel` iterations
without terminating. -/
def getArticlesLoop (provider : Nat → Except MatterError FeedPage) :
    Nat → Nat → List FeedEntry → Nat → Option Nat → Option Nat → Bool → Nat →
    Option (Except MatterError (GetArticlesResult × Nat))
  | 0, _, _, _, _, _, _, _ => none
  | fuel + 1, page, acc, limit, qc, ac, hasMore, fetched =>
    if hasMore ∧ acc.length < limit then
      match provider page with
      | .error e => some (.error e)
      | .ok resp =>
        let acc2 := acc ++ resp.feed
        let qc2 := if page = 1 then resp.queueCount else qc
        let ac2 := if page = 1 then resp.archiveCount else ac
        if limit ≤ acc2.length then
          some (.ok (⟨acc2.take limit, resp.next, qc2, ac2⟩, fetched + 1))
        else
          getArticlesLoop provider fuel (page + 1) acc2 limit qc2 ac2
            resp.next.isSome (fetched + 1)
    else
      some (.ok (⟨acc, none, qc, ac⟩, fetched))

/-- `MatterClient.getArticles` (lines 283–330): defaulted limit (`|| 100`) and
start page (`|| 1`), empty accumulator, `hasMore` initially true. -/
def getArticles (provider : Nat → Except MatterError FeedPage) (fuel : Nat)
    (limitOpt pageOpt : Option Nat) :
    Option (Except MatterError (GetArticlesResult × Nat)) :=
  getArticlesLoop provider fuel (jsOrDefault pageOpt 1) [] (jsOrDefault limitOpt 100)
    none none true 0

/-- The `while` loop of `MatterClient.getArticle` (lines 345–362): fetch the page,
return the first entry matching the identifier, otherwise continue while `next`
is non-null.  Same `provider`/fuel/fetch-count conventions as `getArticlesLoop`. -/
def getArticleLoop (provider : Nat → Except MatterError FeedPage)
    (articleId : String) (numericId : Option Int) :
    Nat → Nat → Nat → Option (Except MatterError (Option FeedEntry × Nat))
  | 0, _, _ => none
  | fuel + 1, page, fetched =>
    match provider page with
    | .error e => some (.error e)
    | .ok resp =>
      match resp.feed.find? (entryMatches articleId numericId) with
      | some entry => some (.ok (some entry, fetched + 1))
      | none =>
        if resp.next.isSome then
          getArticleLoop provider articleId numericId fuel (page + 1) (fetched + 1)
        else
          some (.ok (none, fetched + 1))

/-- `MatterClient.getArticle` (lines 335–365): parses the identifier once with
`parseInt(articleId, 10)` and scans the feed from page 1 with no limit. -/
def getArticle (provider : Nat → Except MatterError FeedPage) (fuel : Nat)
    (articleId : String) : Option (Except MatterError (Option FeedEntry × Nat)) :=
  getArticleLoop provider articleId (parseIntBase10 articleId) fuel 1 0

/-- A provider backed by a finite page list: page number `k` (1-based) answers
with the `k`-th page; pages beyond the list answer with an empty terminal page. -/
def providerOfPages (ps : List FeedPage) : Nat → Except MatterError FeedPage :=
  fun k => .ok (ps.getD (k - 1) default)

/-- All items of a page list, in page order. -/
def joinFeeds (ps : List FeedPage) : List FeedEntry := (ps.map FeedPage.feed).flatten

/-- Total number of items across a page list. -/
def totalItems (ps : List FeedPage) : Nat := (joinFeeds ps).length

/-- A well-formed cursor chain: every page except the last carries a cursor, the
last page's cursor is absent. -/
def chainPages : List FeedPage → Prop
  | [] => True
  | [p] => p.next = none
  | p :: q :: rest => p.next.isSome = true ∧ chainPages (q :: rest)

/-- A provider that answers every page with zero items and the same cursor. -/
def constCursorProvider (c : String) : Nat → Except MatterError FeedPage :=
  fun _ => .ok ⟨[], some c, none, none⟩

/-- Number of pages the article lookup visits before returning: the position of
the first page containing a match, or the whole chain when there is none. -/
def pagesScanned (aid : String) (nid : Option Int) : List FeedPage → Nat
  | [] => 0
  | p :: rest =>
    if (p.feed.find? (entryMatches aid nid)).isSome then 1
    else pagesScanned aid nid rest + 1

/-- Number of items contained in the first `n` pages. -/
def partialItems : List FeedPage → Nat → Nat
  | _, 0 => 0
  | [], _ + 1 => 0
  | p :: rest, m + 1 => p.feed.length + partialItems rest m

/-- The minimal number of pages whose items reach `limit` (when that many exist). -/
def pagesNeeded (limit : Nat) : List FeedPage → Nat
  | [] => 0
  | p :: rest =>
    if limit ≤ p.feed.length then 1 else pagesNeeded (limit - p.feed.length) rest + 1

/-- A tool invocation result as returned by the MCP call handler: the single
text content block and the `isError` flag. -/
structure ToolResult where
  text : String
  isError : Bool
deriving DecidableEq, Repr

/-- The `matter_get_article` case of `createMatterServer`'s call handler
(src/src/server.ts lines 487–511) together with the surrounding `catch` (lines
537–548).  `lookup` is the outcome of `client.getArticle`: a thrown
`MatterAPIError` lands in the catch and renders as `Error: <message>` with
`isError: true`; a `null` lookup renders the not-found message, also with
`isError: true`; a found entry renders through `formatArticle` with no error
flag (text formatting is out of scope per the spec §1 and is passed in as
`format`). -/
def matterGetArticleTool (format : FeedEntry → String) (articleId : String)
    (lookup : Except MatterError (Option FeedEntry)) : ToolResult :=
  match lookup with
  | .error e => ⟨"Error: " ++ e.message, true⟩
  | .ok none => ⟨"Article with ID \"" ++ articleId ++ "\" not found.", true⟩
  | .ok (some entry) => ⟨format entry, false⟩

/-- Truthiness of a possibly-absent JS string value: present and non-empty. -/
def strTruthy : Option String → Bool
  | none => false
  | some s => s != ""

/-- JS `a || b` on possibly-absent string values. -/
def jsOrStr (a b : Option String) : Option String := if strTruthy a then a else b

/-- The parsed JSON body of one poll of `/api/oauth/exchange` as probed by the
QR page script: the `ok` flag of the response and the token fields in both the
snake_case and camelCase spellings the script falls back between. -/
structure ExchangeResponse where
  ok : Bool
  access_token : Option String
  accessToken : Option String
  refresh_token : Option String
  refreshToken : Option String
deriving DecidableEq, Repr

/-- `data.access_token || data.accessToken` of the page script. -/
def respAccess (r : ExchangeResponse) : Option String :=
  jsOrStr r.access_token r.accessToken

/-- `data.refresh_token || data.refreshToken` of the page script. -/
def respRefresh (r : ExchangeResponse) : Option String :=
  jsOrStr r.refresh_token r.refreshToken

/-- Whether one poll attempt completes the flow: the fetch did not throw
(`none` models a thrown fetch, caught and ignored), the response is ok, and both
token values are truthy. -/
def pollComplete : Option ExchangeResponse → Bool
  | none => false
  | some r => r.ok && (strTruthy (respAccess r) && strTruthy (respRefresh r))

/-- Terminal state of the QR polling flow: `resolved` carries the number of
attempts made and the credential pair; `expired` the number of attempts made. -/
inductive PollOutcome where
  | resolved (attempts : Nat) (access refresh : String)
  | expired (attempts : Nat)
deriving DecidableEq, Repr

/-- The polling `for` loop of `pollForTokens` (src/api/oauth/authorize.ts lines
140–177): attempt `i` fetches the exchange endpoint (`responses i`; `none` =
fetch or JSON parse threw, caught and ignored); a non-ok response or a response
missing either token continues; a complete pair redirects immediately
(`resolved`); running out of attempts yields the timeout message (`expired`). -/
def pollLoop (responses : Nat → Option ExchangeResponse) : Nat → Nat → PollOutcome
  | 0, i => .expired i
  | fuel + 1, i =>
    match responses i with
    | none => pollLoop responses fuel (i + 1)
    | some r =>
      if r.ok then
        if strTruthy (respAccess r) && strTruthy (respRefresh r) then
          .resolved (i + 1) ((respAccess r).getD "") ((respRefresh r).getD "")
        else pollLoop responses fuel (i + 1)
      else pollLoop responses fuel (i + 1)

/-- The loop bound of `pollForTokens`: `for (let i = 0; i < 120; i++)`. -/
def pollAttempts : Nat := 120

/-- The fixed polling interval: `await new Promise(r => setTimeout(r, 1000))`. -/
def pollIntervalMs : Nat := 1000

/-- `pollForTokens`: up to `pollAttempts` polls, one per interval, from attempt 0. -/
def pollForTokens (responses : Nat → Option ExchangeResponse) : PollOutcome :=
  pollLoop responses pollAttempts 0

/-- Lowercase hexadecimal digit (used by the `\u00XX` escapes of
`JSON.stringify`). -/
def hexDigitChar (n : Nat) : Char := Char.ofNat (if n < 10 then 48 + n else 87 + n)

/-- The escape `JSON.stringify` applies to one character of a string value:
quote and backslash are escaped, the named control escapes are used for
backspace, tab, newline, form feed and carriage return, other control
characters become `\u00XX`, and everything else passes through. -/
def jsonEscapeChar (c : Char) : List Char :=
  if c = '"' then ['\\', '"']
  else if c = '\\' then ['\\', '\\']
  else if c = '\x08' then ['\\', 'b']
  else if c = '\t' then ['\\', 't']
  else if c = '\n' then ['\\', 'n']
  else if c = '\x0c' then ['\\', 'f']
  else if c = '\r' then ['\\', 'r']
  else if c.toNat < 32 then
    ['\\', 'u', '0', '0', hexDigitChar (c.toNat / 16), hexDigitChar (c.toNat % 16)]
  else [c]

/-- `JSON.stringify` escaping of a whole string value. -/
def jsonEscape (cs : List Char) : List Char := (cs.map jsonEscapeChar).flatten

/-- `JSON.stringify` of a two-string-field object with the given key names, in
insertion order and without whitespace — the exact texts produced at the two
serialization sites of the QR bridge (`{"access_token":...,"refresh_token":...}`
in authorize.ts and `{"accessToken":...,"refreshToken":...}` in token.ts). -/
def jsonStringifyTokens (k1 k2 va vb : List Char) : List Char :=
  ['{', '"'] ++ k1 ++ ['"', ':', '"'] ++ jsonEscape va ++ ['"', ',', '"'] ++ k2 ++
    ['"', ':', '"'] ++ jsonEscape vb ++ ['"', '}']

/-- Value of one hexadecimal digit, in any case. -/
def hexVal (c : Char) : Option Nat :=
  if '0' ≤ c ∧ c ≤ '9' then some (c.toNat - 48)
  else if 'a' ≤ c ∧ c ≤ 'f' then some (c.toNat - 87)
  else if 'A' ≤ c ∧ c ≤ 'F' then some (c.toNat - 55)
  else none

/-- JSON string-literal body parser (cursor after the opening quote): returns
the decoded content and the remainder after the closing quote. -/
def parseJsonStringBody : List Char → Option (List Char × List Char)
  | [] => none
  | c :: rest =>
    if c = '"' then some ([], rest)
    else if c = '\\' then
      match rest with
      | [] => none
      | e :: rest2 =>
        if e = '"' then (parseJsonStringBody rest2).map (fun p => ('"' :: p.1, p.2))
        else if e = '\\' then (parseJsonStringBody rest2).map (fun p => ('\\' :: p.1, p.2))
        else if e = '/' then (parseJsonStringBody rest2).map (fun p => ('/' :: p.1, p.2))
        else if e = 'b' then (parseJsonStringBody rest2).map (fun p => ('\x08' :: p.1, p.2))
        else if e = 't' then (parseJsonStringBody rest2).map (fun p => ('\t' :: p.1, p.2))
        else if e = 'n' then (parseJsonStringBody rest2).map (fun p => ('\n' :: p.1, p.2))
        else if e = 'f' then (parseJsonStringBody rest2).map (fun p => ('\x0c' :: p.1, p.2))
        else if e = 'r' then (parseJsonStringBody rest2).map (fun p => ('\r' :: p.1, p.2))
        else if e = 'u' then
          match rest2 with
          | h1 :: h2 :: h3 :: h4 :: rest3 =>
            match hexVal h1, hexVal h2, hexVal h3, hexVal h4 with
            | some v1, some v2, some v3, some v4 =>
              (parseJsonStringBody rest3).map
                (fun p => (Char.ofNat (((v1 * 16 + v2) * 16 + v3) * 16 + v4) :: p.1, p.2))
            | _, _, _, _ => none
          | _ => none
        else none
    else (parseJsonStringBody rest).map (fun p => (c :: p.1, p.2))

/-- Consume an exact literal from the head of the input. -/
def dropLiteral : List Char → List Char → Option (List Char)
  | [], cs => some cs
  | _ :: _, [] => none
  | p :: ps, c :: cs => if c = p then dropLiteral ps cs else none

/-- `JSON.parse` restricted to the shape of the objects serialized by
`jsonStringifyTokens`: a two-string-field object with the given key names and
nothing else.  The QR bridge only ever parses texts it produced itself through
that serializer; any other input makes `JSON.parse` (here: this parser)
fail, which each call site catches. -/
def jsonParseTokens (k1 k2 : List Char) (cs : List Char) : Option (List Char × List Char) :=
  match dropLiteral (['{', '"'] ++ k1 ++ ['"', ':', '"']) cs with
  | none => none
  | some cs1 =>
    match parseJsonStringBody cs1 with
    | none => none
    | some (v1, cs2) =>
      match dropLiteral ([',', '"'] ++ k2 ++ ['"', ':', '"']) cs2 with
      | none => none
      | some cs3 =>
        match parseJsonStringBody cs3 with
        | none => none
        | some (v2, cs4) => if cs4 = ['}'] then some (v1, v2) else none

/-- The base64 alphabet. -/
def b64Alphabet : List Char :=
  "ABCDEFGHIJKLMNOPQRSTUVWXYZabcdefghijklmnopqrstuvwxyz0123456789+/".data

/-- Digit of the base64 alphabet. -/
def b64Char (n : Nat) : Char := b64Alphabet.getD n '='

/-- Inverse digit lookup; `none` for padding and foreign characters. -/
def b64Val (c : Char) : Option Nat :=
  let i := b64Alphabet.findIdx (fun a => a == c)
  if i < 64 then some i else none

/-- Standard base64 of a byte sequence, with `=` padding (as `btoa` and
`Buffer.toString("base64")` produce). -/
def base64encode : List Nat → List Char
  | [] => []
  | [b1] => [b64Char (b1 / 4), b64Char (b1 % 4 * 16), '=', '=']
  | [b1, b2] =>
    [b64Char (b1 / 4), b64Char (b1 % 4 * 16 + b2 / 16), b64Char (b2 % 16 * 4), '=']
  | b1 :: b2 :: b3 :: rest =>
    b64Char (b1 / 4) :: b64Char (b1 % 4 * 16 + b2 / 16) ::
      b64Char (b2 % 16 * 4 + b3 / 64) :: b64Char (b3 % 64) :: base64encode rest

/-- Reassemble bytes from 6-bit groups (tail groups from padding-stripped
input). -/
def base64decodeVals : List Nat → List Nat
  | v1 :: v2 :: v3 :: v4 :: rest =>
    (v1 * 4 + v2 / 16) :: (v2 % 16 * 16 + v3 / 4) :: (v3 % 4 * 64 + v4) ::
      base64decodeVals rest
  | [v1, v2, v3] => [v1 * 4 + v2 / 16, v2 % 16 * 16 + v3 / 4]
  | [v1, v2] => [v1 * 4 + v2 / 16]
  | _ => []

/-- `Buffer.from(s, "base64")`: lenient decode that skips padding and foreign
characters. -/
def base64decode (cs : List Char) : List Nat := base64decodeVals (cs.filterMap b64Val)

/-- `btoa`: base64 of the code points read as Latin-1 bytes; throws
`InvalidCharacterError` (here: `none`) when any code point exceeds 255. -/
def btoa (cs : List Char) : Option (List Char) :=
  if cs.all (fun c => c.toNat ≤ 255) then some (base64encode (cs.map Char.toNat))
  else none

/-- UTF-8 encoding of one scalar value. -/
def utf8EncodeChar (c : Char) : List Nat :=
  let n := c.toNat
  if n < 128 then [n]
  else if n < 2048 then [192 + n / 64, 128 + n % 64]
  else if n < 65536 then [224 + n / 4096, 128 + n / 64 % 64, 128 + n % 64]
  else [240 + n / 262144, 128 + n / 4096 % 64, 128 + n / 64 % 64, 128 + n % 64]

/-- `Buffer.from(string)`: UTF-8 bytes of the string. -/
def utf8Encode (cs : List Char) : List Nat := (cs.map utf8EncodeChar).flatten

/-- The replacement character U+FFFD emitted for ill-formed byte sequences. -/
def replacementChar : Char := Char.ofNat 65533

/-- A UTF-8 continuation byte. -/
def utf8Cont (b : Nat) : Bool := decide (128 ≤ b) && decide (b < 192)

/-- Classification of one lead byte by the WHATWG UTF-8 decode algorithm (the
algorithm `buffer.toString("utf-8")` follows): ASCII, the start of a 2–4 byte
sequence — with the second byte's admissible range tightened against overlong
forms (`E0`, `F0`), surrogates (`ED`) and out-of-range values (`F4`) — or an
invalid lead. -/
inductive Utf8Lead where
  | ascii (c : Nat)
  | multi (needed acc lo hi : Nat)
  | invalid
deriving DecidableEq, Repr

/-- See `Utf8Lead`. -/
def utf8ClassifyLead (b : Nat) : Utf8Lead :=
  if b < 128 then .ascii b
  else if b < 194 then .invalid
  else if b < 224 then .multi 1 (b - 192) 128 191
  else if b < 240 then
    .multi 2 (b - 224) (if b = 224 then 160 else 128) (if b = 237 then 159 else 191)
  else if b < 245 then
    .multi 3 (b - 240) (if b = 240 then 144 else 128) (if b = 244 then 143 else 191)
  else .invalid

/-- The WHATWG UTF-8 decoder loop: state is the number of continuation bytes
still needed, the accumulated code point, and the admissible range for the next
byte.  Ill-formed input emits U+FFFD and re-examines the offending byte as a
fresh lead (maximal-subpart substitution, as Node does). -/
def utf8DecodeGo : Nat → Nat → Nat → Nat → List Nat → List Char
  | 0, _, _, _, [] => []
  | _ + 1, _, _, _, [] => [replacementChar]
  | 0, _, _, _, b :: rest =>
    match utf8ClassifyLead b with
    | .ascii c => Char.ofNat c :: utf8DecodeGo 0 0 0 0 rest
    | .multi needed acc lo hi => utf8DecodeGo needed acc lo hi rest
    | .invalid => replacementChar :: utf8DecodeGo 0 0 0 0 rest
  | needed + 1, acc, lo, hi, b :: rest =>
    if lo ≤ b ∧ b ≤ hi then
      if needed = 0 then
        Char.ofNat (acc * 64 + (b - 128)) :: utf8DecodeGo 0 0 0 0 rest
      else
        utf8DecodeGo needed (acc * 64 + (b - 128)) 128 191 rest
    else
      replacementChar ::
        (match utf8ClassifyLead b with
        | .ascii c => Char.ofNat c :: utf8DecodeGo 0 0 0 0 rest
        | .multi n2 a2 l2 h2 => utf8DecodeGo n2 a2 l2 h2 rest
        | .invalid => replacementChar :: utf8DecodeGo 0 0 0 0 rest)

/-- `buffer.toString("utf-8")`: UTF-8 decoding with U+FFFD substitution for
ill-formed sequences. -/
def utf8Decode (bs : List Nat) : List Char := utf8DecodeGo 0 0 0 0 bs

/-- The authorization-code packaging of the QR page script
(src/api/oauth/authorize.ts lines 157–161):
`btoa(JSON.stringify({access_token, refresh_token}))`.  `none` models `btoa`
throwing `InvalidCharacterError` on a code point above U+00FF. -/
def encodeAuthCode (accessToken refreshToken : String) : Option String :=
  (btoa (jsonStringifyTokens "access_token".data "refresh_token".data
    accessToken.data refreshToken.data)).map (fun cs => String.mk cs)

/-- The token-endpoint exchange (src/api/oauth/token.ts lines 44–64):
base64-decode the code, read it as UTF-8, `JSON.parse` it, reject (HTTP 400
`invalid_grant`, here `none`) when parsing fails or either token is falsy, and
answer with the combined bearer token — base64 of the UTF-8 bytes of the
camelCase re-serialization — plus the refresh token. -/
def tokenEndpoint (code : String) : Option (String × String) :=
  match jsonParseTokens "access_token".data "refresh_token".data
      (utf8Decode (base64decode code.data)) with
  | none => none
  | some (a, r) =>
    if a = [] ∨ r = [] then none
    else
      some (String.mk (base64encode (utf8Encode (jsonStringifyTokens
        "accessToken".data "refreshToken".data a r))), String.mk r)

/-- The Bearer branch of `getTokensFromRequest` (src/api/mcp.ts lines 85–103):
base64-decode the bearer token, read it as UTF-8, `JSON.parse` it and accept
when both fields are truthy; any failure falls through (to the custom headers,
absent here — `none`). -/
def getTokensFromBearer (token : String) : Option MatterTokens :=
  match jsonParseTokens "accessToken".data "refreshToken".data
      (utf8Decode (base64decode token.data)) with
  | none => none
  | some (a, r) =>
    if a = [] ∨ r = [] then none else some ⟨String.mk a, String.mk r⟩

/-- The full two-hop envelope: QR page encodes the pair as the authorization
code, the token endpoint decodes it and re-seals it as the bearer token, the
MCP resource endpoint opens the bearer token. -/
def qrTokenRoundTrip (accessToken refreshToken : String) : Option MatterTokens :=
  match encodeAuthCode accessToken refreshToken with
  | none => none
  | some code =>
    match tokenEndpoint code with
    | none => none
    | some (bearer, _) => getTokensFromBearer bearer

end Matter

namespace Matter

/-- A decimal digit is not `parseInt` whitespace. -/
theorem digit_not_space (c : Char) (h : c.isDigit = true) : jsSpace c = false := by
  have h1 : c ≠ ' ' := by rintro rfl; exact absurd h (by decide)
  have h2 : c ≠ '\t' := by rintro rfl; exact absurd h (by decide)
  have h3 : c ≠ '\n' := by rintro rfl; exact absurd h (by decide)
  have h4 : c ≠ '\r' := by rintro rfl; exact absurd h (by decide)
  have h5 : c ≠ '\x0b' := by rintro rfl; exact absurd h (by decide)
  have h6 : c ≠ '\x0c' := by rintro rfl; exact absurd h (by decide)
  simp [jsSpace, h1, h2, h3, h4, h5, h6]

/-- A decimal digit is not a sign character. -/
theorem digit_not_sign (c : Char) (h : c.isDigit = true) : c ≠ '-' ∧ c ≠ '+' := by
  constructor
  · rintro rfl; exact absurd h (by decide)
  · rintro rfl; exact absurd h (by decide)

/-- `takeWhile` stops exactly at the first failing element after an all-true run. -/
theorem takeWhile_all_append (p : Char → Bool) :
    ∀ (l1 : List Char) (r0 : Char) (r : List Char),
      (∀ c ∈ l1, p c = true) → p r0 = false → (l1 ++ r0 :: r).takeWhile p = l1 := by
  intro l1
  induction l1 with
  | nil => intro r0 r _ hr0; simp [List.takeWhile_cons, hr0]
  | cons a t ih =>
    intro r0 r hall hr0
    have ha : p a = true := hall a (List.mem_cons_self a t)
    have ht : ∀ c ∈ t, p c = true := fun c hc => hall c (List.mem_cons_of_mem a hc)
    simp [List.takeWhile_cons, ha, ih r0 r ht hr0]

/-- `parseIntBase10` on a digit run followed by a non-digit returns the value of
the digit run (the numeric-prefix behaviour of JS `parseInt`). -/
theorem parseIntBase10_digit_run (ds : List Char) (r0 : Char) (rtail : List Char)
    (hds : ds ≠ []) (hdig : ∀ c ∈ ds, c.isDigit = true) (hr0 : r0.isDigit = false) :
    parseIntBase10 (String.mk (ds ++ r0 :: rtail)) = some ((digitsToNat ds : Int)) := by
  obtain ⟨d, ds', rfl⟩ : ∃ d ds', ds = d :: ds' := by
    cases ds with
    | nil => exact absurd rfl hds
    | cons d ds' => exact ⟨d, ds', rfl⟩
  have hd : d.isDigit = true := hdig d (List.mem_cons_self d ds')
  have hspace : jsSpace d = false := digit_not_space d hd
  have hsign := digit_not_sign d hd
  have htake : ((d :: ds') ++ r0 :: rtail).takeWhile Char.isDigit = d :: ds' :=
    takeWhile_all_append Char.isDigit (d :: ds') r0 rtail hdig hr0
  simp only [parseIntBase10, String.mk, List.cons_append, List.dropWhile_cons, hspace,
    Bool.false_eq_true, if_false, hsign.1, hsign.2, if_false]
  simp only [parseNatFrom, leadingDigits, ← List.cons_append, htake]
  simp

/-- Items of a cons chain are the head page's items before the tail's. -/
theorem joinFeeds_cons (p : FeedPage) (ps : List FeedPage) :
    joinFeeds (p :: ps) = p.feed ++ joinFeeds ps := by
  simp [joinFeeds]

/-- If no item of the whole chain matches, the scan visits every page. -/
theorem pagesScanned_eq_of_no_match (aid : String) (nid : Option Int) :
    ∀ ps : List FeedPage,
      (joinFeeds ps).find? (entryMatches aid nid) = none →
      pagesScanned aid nid ps = ps.length := by
  intro ps
  induction ps with
  | nil => intro _; rfl
  | cons p rest ih =>
    intro hnone
    rw [joinFeeds_cons, List.find?_append] at hnone
    have h1 : p.feed.find? (entryMatches aid nid) = none := by
      cases h : p.feed.find? (entryMatches aid nid) with
      | none => rfl
      | some e => rw [h] at hnone; simp [Option.or] at hnone
    have h2 : (joinFeeds rest).find? (entryMatches aid nid) = none := by
      rw [h1] at hnone; simpa [Option.or] using hnone
    simp [pagesScanned, h1, ih h2]

/-- Main lemma for the article locator: over a well-formed cursor chain served
page by page, the loop returns the first match of the concatenated feed (or
`none`), having fetched exactly `pagesScanned` pages. -/
theorem getArticleLoop_chain (aid : String) (nid : Option Int) :
    ∀ (ps : List FeedPage) (provider : Nat → Except MatterError FeedPage)
      (page fetched fuel : Nat),
      ps ≠ [] → chainPages ps → ps.length ≤ fuel →
      (∀ k, k < ps.length → provider (page + k) = .ok (ps.getD k default)) →
      getArticleLoop provider aid nid fuel page fetched =
        some (.ok ((joinFeeds ps).find? (entryMatches aid nid),
          fetched + pagesScanned aid nid ps)) := by
  intro ps
  induction ps with
  | nil => intro provider page fetched fuel hne _ _ _; exact absurd rfl hne
  | cons p rest ih =>
    intro provider page fetched fuel _ hchain hfuel hprov
    obtain ⟨f, rfl⟩ : ∃ f, fuel = f + 1 := by
      cases fuel with
      | zero => simp at hfuel
      | succ f => exact ⟨f, rfl⟩
    have hp : provider page = .ok p := by
      have := hprov 0 (by simp)
      simpa using this
    cases hf : p.feed.find? (entryMatches aid nid) with
    | some entry =>
      have hfind : (joinFeeds (p :: rest)).find? (entryMatches aid nid) = some entry := by
        rw [joinFeeds_cons, List.find?_append, hf]; rfl
      simp [getArticleLoop, hp, hf, hfind, pagesScanned]
    | none =>
      cases rest with
      | nil =>
        have hnext : p.next = none := hchain
        simp [getArticleLoop, hp, hf, hnext, joinFeeds, pagesScanned]
      | cons q rest' =>
        have hnext : p.next.isSome = true := hchain.1
        have hprov' : ∀ k, k < (q :: rest').length →
            provider (page + 1 + k) = .ok ((q :: rest').getD k default) := by
          intro k hk
          have h1 := hprov (k + 1) (by simpa using Nat.succ_lt_succ hk)
          have h2 : page + (k + 1) = page + 1 + k := by omega
          rw [h2] at h1
          simpa using h1
        have hrec := ih provider (page + 1) (fetched + 1) f (by simp) hchain.2
          (by simpa using hfuel) hprov'
        have hfind : (joinFeeds (p :: q :: rest')).find? (entryMatches aid nid) =
            (joinFeeds (q :: rest')).find? (entryMatches aid nid) := by
          rw [joinFeeds_cons, List.find?_append, hf]; rfl
        simp only [getArticleLoop, hp, hf, hnext, if_true, hrec, hfind, pagesScanned,
          Bool.false_eq_true]
        simp [Nat.add_assoc]
        omega

/-- `totalItems` of a cons chain. -/
theorem totalItems_cons (p : FeedPage) (ps : List FeedPage) :
    totalItems (p :: ps) = p.feed.length + totalItems ps := by
  simp [totalItems, joinFeeds_cons]

/-- A non-empty chain needs at least one page. -/
theorem pagesNeeded_pos (n : Nat) (p : FeedPage) (ps : List FeedPage) :
    1 ≤ pagesNeeded n (p :: ps) := by
  simp only [pagesNeeded]
  split <;> omega

/-- Fewer pages than `pagesNeeded` never reach the limit (minimality). -/
theorem partialItems_lt_of_lt_pagesNeeded :
    ∀ (ps : List FeedPage) (n m : Nat), 0 < n → m < pagesNeeded n ps →
      partialItems ps m < n := by
  intro ps
  induction ps with
  | nil => intro n m _ hm; simp [pagesNeeded] at hm
  | cons p rest ih =>
    intro n m hn hm
    simp only [pagesNeeded] at hm
    by_cases hc : n ≤ p.feed.length
    · rw [if_pos hc] at hm
      have hm0 : m = 0 := by omega
      subst hm0
      simpa [partialItems] using hn
    · rw [if_neg hc] at hm
      cases m with
      | zero => simpa [partialItems] using hn
      | succ m2 =>
        have h1 := ih (n - p.feed.length) m2 (by omega) (by omega)
        simp only [partialItems]
        omega

/-- Exhaustion case of the `getArticles` loop: the chain runs out of cursors
before the limit is met — all items are accumulated in page order, the returned
cursor is `none`, and every page is fetched once. -/
theorem getArticlesLoop_chain_exhaust :
    ∀ (ps : List FeedPage) (provider : Nat → Except MatterError FeedPage)
      (page : Nat) (acc : List FeedEntry) (limit : Nat) (qc ac : Option Nat)
      (fetched fuel : Nat),
      ps ≠ [] → chainPages ps →
      (∀ k, k < ps.length → provider (page + k) = .ok (ps.getD k default)) →
      acc.length + totalItems ps < limit →
      ps.length + 1 ≤ fuel →
      ∃ qc2 ac2,
        getArticlesLoop provider fuel page acc limit qc ac true fetched =
          some (.ok (⟨acc ++ joinFeeds ps, none, qc2, ac2⟩, fetched + ps.length)) := by
  intro ps
  induction ps with
  | nil => intro provider page acc limit qc ac fetched fuel hne; exact absurd rfl hne
  | cons p rest ih =>
    intro provider page acc limit qc ac fetched fuel _ hchain hprov hlt hfuel
    obtain ⟨f, rfl⟩ : ∃ f, fuel = f + 1 := ⟨fuel - 1, by omega⟩
    have hp : provider page = .ok p := by simpa using hprov 0 (by simp)
    have htot : totalItems (p :: rest) = p.feed.length + totalItems rest :=
      totalItems_cons p rest
    have htotnn : 0 ≤ totalItems rest := Nat.zero_le _
    have hlt1 : acc.length < limit := by omega
    have hnotle : ¬ limit ≤ (acc ++ p.feed).length := by
      rw [List.length_append]; omega
    cases rest with
    | nil =>
      have hnext : p.next = none := hchain
      obtain ⟨f2, rfl⟩ : ∃ f2, f = f2 + 1 := ⟨f - 1, by simp at hfuel; omega⟩
      have hnotle2 : ¬ limit ≤ acc.length + p.feed.length := by omega
      refine ⟨if page = 1 then p.queueCount else qc,
        if page = 1 then p.archiveCount else ac, ?_⟩
      simp [getArticlesLoop, hp, hlt1, hnotle2, hnext, joinFeeds]
    | cons q rest' =>
      have hnext : p.next.isSome = true := hchain.1
      have hprov2 : ∀ k, k < (q :: rest').length →
          provider (page + 1 + k) = .ok ((q :: rest').getD k default) := by
        intro k hk
        have h1 := hprov (k + 1) (by simpa using Nat.succ_lt_succ hk)
        have h2 : page + (k + 1) = page + 1 + k := by omega
        rw [h2] at h1
        simpa using h1
      have hlen2 : (acc ++ p.feed).length = acc.length + p.feed.length :=
        List.length_append acc p.feed
      obtain ⟨qcf, acf, hrec⟩ := ih provider (page + 1) (acc ++ p.feed) limit
        (if page = 1 then p.queueCount else qc) (if page = 1 then p.archiveCount else ac)
        (fetched + 1) f (by simp) hchain.2 hprov2 (by omega)
        (by simp only [List.length_cons] at hfuel ⊢; omega)
      refine ⟨qcf, acf, ?_⟩
      simp only [getArticlesLoop, hp]
      rw [if_pos ⟨trivial, hlt1⟩, if_neg hnotle]
      rw [hnext, hrec]
      rw [joinFeeds_cons, ← List.append_assoc]
      have hl : (p :: q :: rest').length = (q :: rest').length + 1 := by simp
      rw [hl]
      have harith : fetched + 1 + (q :: rest').length =
          fetched + ((q :: rest').length + 1) := by omega
      rw [harith]
      simp [joinFeeds_cons, List.append_assoc]

/-- Limit-reached case of the `getArticles` loop: the accumulator reaches the
limit on page `pagesNeeded` of the chain — exactly `limit` items are returned
(a prefix of the concatenation), the cursor is whatever that page carried, and
no page beyond it is fetched. -/
theorem getArticlesLoop_chain_limit :
    ∀ (ps : List FeedPage) (provider : Nat → Except MatterError FeedPage)
      (page : Nat) (acc : List FeedEntry) (limit : Nat) (qc ac : Option Nat)
      (fetched fuel : Nat),
      ps ≠ [] → chainPages ps →
      (∀ k, k < ps.length → provider (page + k) = .ok (ps.getD k default)) →
      acc.length < limit →
      limit ≤ acc.length + totalItems ps →
      ps.length + 1 ≤ fuel →
      ∃ qc2 ac2,
        getArticlesLoop provider fuel page acc limit qc ac true fetched =
          some (.ok (⟨(acc ++ joinFeeds ps).take limit,
            (ps.getD (pagesNeeded (limit - acc.length) ps - 1) default).next,
            qc2, ac2⟩,
            fetched + pagesNeeded (limit - acc.length) ps)) := by
  intro ps
  induction ps with
  | nil => intro provider page acc limit qc ac fetched fuel hne; exact absurd rfl hne
  | cons p rest ih =>
    intro provider page acc limit qc ac fetched fuel _ hchain hprov hlt hreach hfuel
    obtain ⟨f, rfl⟩ : ∃ f, fuel = f + 1 := ⟨fuel - 1, by omega⟩
    have hp : provider page = .ok p := by simpa using hprov 0 (by simp)
    have htot : totalItems (p :: rest) = p.feed.length + totalItems rest :=
      totalItems_cons p rest
    have hlen : (acc ++ p.feed).length = acc.length + p.feed.length :=
      List.length_append acc p.feed
    by_cases hfull : limit ≤ (acc ++ p.feed).length
    · have hpn : pagesNeeded (limit - acc.length) (p :: rest) = 1 := by
        simp only [pagesNeeded]
        rw [if_pos (by omega)]
      have htake : (acc ++ joinFeeds (p :: rest)).take limit =
          (acc ++ p.feed).take limit := by
        rw [joinFeeds_cons, ← List.append_assoc]
        exact List.take_append_of_le_length hfull
      refine ⟨if page = 1 then p.queueCount else qc,
        if page = 1 then p.archiveCount else ac, ?_⟩
      simp only [getArticlesLoop, hp]
      rw [if_pos ⟨trivial, hlt⟩, if_pos hfull]
      rw [hpn, htake]
      rfl
    · cases rest with
      | nil =>
        exfalso
        have h1 : totalItems [p] = p.feed.length + totalItems [] :=
          totalItems_cons p []
        have h2 : totalItems ([] : List FeedPage) = 0 := rfl
        omega
      | cons q rest' =>
        have hnext : p.next.isSome = true := hchain.1
        have hprov2 : ∀ k, k < (q :: rest').length →
            provider (page + 1 + k) = .ok ((q :: rest').getD k default) := by
          intro k hk
          have h1 := hprov (k + 1) (by simpa using Nat.succ_lt_succ hk)
          have h2 : page + (k + 1) = page + 1 + k := by omega
          rw [h2] at h1
          simpa using h1
        obtain ⟨qcf, acf, hrec⟩ := ih provider (page + 1) (acc ++ p.feed) limit
          (if page = 1 then p.queueCount else qc)
          (if page = 1 then p.archiveCount else ac)
          (fetched + 1) f (by simp) hchain.2 hprov2 (by omega)
          (by rw [hlen]; omega)
          (by simp only [List.length_cons] at hfuel ⊢; omega)
        have hpn : pagesNeeded (limit - acc.length) (p :: q :: rest') =
            pagesNeeded (limit - (acc ++ p.feed).length) (q :: rest') + 1 := by
          simp only [pagesNeeded]
          rw [if_neg (by omega)]
          have he : limit - acc.length - p.feed.length =
              limit - (acc ++ p.feed).length := by rw [hlen]; omega
          rw [he]
        obtain ⟨pn2, hpn2⟩ : ∃ pn2,
            pagesNeeded (limit - (acc ++ p.feed).length) (q :: rest') = pn2 + 1 :=
          ⟨pagesNeeded (limit - (acc ++ p.feed).length) (q :: rest') - 1, by
            have := pagesNeeded_pos (limit - (acc ++ p.feed).length) q rest'
            omega⟩
        refine ⟨qcf, acf, ?_⟩
        simp only [getArticlesLoop, hp]
        rw [if_pos ⟨trivial, hlt⟩, if_neg hfull]
        rw [hnext, hrec, hpn, hpn2]
        rw [joinFeeds_cons, ← List.append_assoc]
        have hidx : pn2 + 1 + 1 - 1 = pn2 + 1 := by omega
        have hidx2 : pn2 + 1 - 1 = pn2 := by omega
        rw [hidx, hidx2, List.getD_cons_succ]
        have harith : fetched + 1 + (pn2 + 1) = fetched + (pn2 + 1 + 1) := by omega
        rw [harith]
        simp [joinFeeds_cons, List.append_assoc]

end Matter

/-- C1: on a 401 first attempt, `request` performs exactly one token refresh; if the
refresh reports success it retries exactly once with the new access token, returning
the parsed retry body transparently when the retry is 2xx and an auth-expiry error
(`"Request failed after token refresh"`) when it is not; if the refresh fails it
surfaces the auth-expiry error `"Authentication failed"` without retrying.  In all
cases at most 2 fetches of the original endpoint and at most 1 refresh call are
made. -/
theorem c1_executor_401_refresh_retry
    (st : Matter.MatterTokens) (first retry : Matter.HttpResponse)
    (rr : Option Matter.RefreshResponse) (cb : Option (Matter.MatterTokens → Bool)) :
    (Matter.request st first retry rr cb).fetches ≤ 2 ∧
    (Matter.request st first retry rr cb).refreshCalls ≤ 1 ∧
    (first.status = 401 →
      (Matter.request st first retry rr cb).refreshCalls = 1 ∧
      ((Matter.refreshAccessToken st rr cb).1 = true →
        (Matter.request st first retry rr cb).fetches = 2 ∧
        (Matter.request st first retry rr cb).authHeaders =
          [st.accessToken, (Matter.refreshAccessToken st rr cb).2.accessToken] ∧
        (retry.ok = true →
          (Matter.request st first retry rr cb).result = .success retry.body) ∧
        (retry.ok = false →
          (Matter.request st first retry rr cb).result =
            .failure (.failedAfterRefresh retry.statusText retry.status) ∧
          (Matter.request st first retry rr cb).result.isAuthExpired = true)) ∧
      ((Matter.refreshAccessToken st rr cb).1 = false →
        (Matter.request st first retry rr cb).fetches = 1 ∧
        (Matter.request st first retry rr cb).result = .failure .authenticationFailed ∧
        (Matter.request st first retry rr cb).result.isAuthExpired = true)) := by
  unfold Matter.request
  by_cases h401 : first.status = 401
  · simp only [h401, if_true]
    by_cases hrf : (Matter.refreshAccessToken st rr cb).1
    · simp only [hrf, if_true]
      by_cases hok : retry.ok
      · simp [hok]
      · simp [hok, Matter.RequestResult.isAuthExpired, Matter.MatterError.isAuthExpired]
    · simp [hrf, Matter.RequestResult.isAuthExpired, Matter.MatterError.isAuthExpired]
  · by_cases hok : first.ok <;>
      simp [h401, hok]

/-- Witness for C1: a concrete run where the first attempt is 401, the refresh
succeeds and the retry succeeds — the caller receives the retry body after exactly
2 fetches and 1 refresh. -/
theorem c1_executor_401_refresh_retry_witness :
    (Matter.request ⟨"a0", "r0"⟩ ⟨401, "Unauthorized", ""⟩ ⟨200, "OK", "payload"⟩
        (some ⟨200, "a1", "r1"⟩) none).result = .success "payload" ∧
    (Matter.request ⟨"a0", "r0"⟩ ⟨401, "Unauthorized", ""⟩ ⟨200, "OK", "payload"⟩
        (some ⟨200, "a1", "r1"⟩) none).fetches = 2 ∧
    (Matter.request ⟨"a0", "r0"⟩ ⟨401, "Unauthorized", ""⟩ ⟨200, "OK", "payload"⟩
        (some ⟨200, "a1", "r1"⟩) none).refreshCalls = 1 := by
  have h := c1_executor_401_refresh_retry ⟨"a0", "r0"⟩ ⟨401, "Unauthorized", ""⟩
    ⟨200, "OK", "payload"⟩ (some ⟨200, "a1", "r1"⟩) none
  exact ⟨((h.2.2 rfl).2.1 (by decide)).2.2.1 (by decide), ((h.2.2 rfl).2.1 (by decide)).1,
    (h.2.2 rfl).1⟩

/-- C8 (code bug): in the source, the `onTokenRefresh` observer runs inside the
`try` block of `refreshAccessToken`, so an observer that throws makes the refresh
report failure: after a 401 and an HTTP-successful refresh, a throwing observer
causes `request` to surface `"Authentication failed"` (AuthExpired) with no retry —
even though the rotated tokens were already installed.  This evaluation exhibits
the failing input. -/
theorem c8_observer_throw_fails_request :
    Matter.request ⟨"old_a", "old_r"⟩ ⟨401, "Unauthorized", ""⟩ ⟨200, "OK", "payload"⟩
        (some ⟨200, "new_a", "new_r"⟩) (some (fun _ => true)) =
      ⟨.failure .authenticationFailed, 1, 1, ["old_a"], ⟨"new_a", "new_r"⟩⟩ := by
  decide

/-- C6: a page with zero items does not end pagination when it carries a cursor —
with a present cursor both the `getArticles` loop (below its limit) and the
`getArticle` loop continue to the next page with an unchanged accumulator, and
only an absent (`null`) cursor makes them stop at such a page (`getArticles`
returning its accumulated items, `getArticle` returning `null`). -/
theorem c6_empty_page_not_exhausted
    (provider provider2 : Nat → Except Matter.MatterError Matter.FeedPage)
    (page page2 fuel fetched : Nat) (acc : List Matter.FeedEntry) (limit : Nat)
    (qc ac qc0 ac0 qc1 ac1 : Option Nat) (c : String)
    (aid : String) (nid : Option Int)
    (hsome : provider page = .ok ⟨[], some c, qc0, ac0⟩)
    (hnone : provider2 page2 = .ok ⟨[], none, qc1, ac1⟩) :
    (acc.length < limit →
      Matter.getArticlesLoop provider (fuel + 1) page acc limit qc ac true fetched =
        Matter.getArticlesLoop provider fuel (page + 1) acc limit
          (if page = 1 then qc0 else qc) (if page = 1 then ac0 else ac)
          true (fetched + 1)) ∧
    (Matter.getArticleLoop provider aid nid (fuel + 1) page fetched =
      Matter.getArticleLoop provider aid nid fuel (page + 1) (fetched + 1)) ∧
    (acc.length < limit →
      Matter.getArticlesLoop provider2 (fuel + 2) page2 acc limit qc ac true fetched =
        some (.ok (⟨acc, none, if page2 = 1 then qc1 else qc,
          if page2 = 1 then ac1 else ac⟩, fetched + 1))) ∧
    (Matter.getArticleLoop provider2 aid nid (fuel + 1) page2 fetched =
      some (.ok (none, fetched + 1))) := by
  refine ⟨fun hlt => ?_, ?_, fun hlt => ?_, ?_⟩
  · simp [Matter.getArticlesLoop, hsome, hlt, Nat.not_le_of_lt hlt]
  · simp [Matter.getArticleLoop, hsome]
  · simp [Matter.getArticlesLoop, hnone, hlt, Nat.not_le_of_lt hlt]
  · simp [Matter.getArticleLoop, hnone]

/-- C6 witness: a concrete zero-item page with a present cursor is traversed
through (the match is found on the following page), and a zero-item page with an
absent cursor ends the lookup with `null`. -/
theorem c6_empty_page_not_exhausted_witness :
    Matter.getArticle (Matter.providerOfPages
        [⟨[], some "cur", none, none⟩, ⟨[⟨"7", 7⟩], none, none, none⟩]) 2 "7" =
      some (.ok (some ⟨"7", 7⟩, 2)) ∧
    Matter.getArticle (Matter.providerOfPages [⟨[], none, none, none⟩]) 2 "7" =
      some (.ok (none, 1)) := by
  have h := c6_empty_page_not_exhausted
    (Matter.providerOfPages
      [⟨[], some "cur", none, none⟩, ⟨[⟨"7", 7⟩], none, none, none⟩])
    (Matter.providerOfPages [⟨[], none, none, none⟩])
    1 1 1 0 [] 1 none none none none none none "cur" "7" (Matter.parseIntBase10 "7")
    (by rfl) (by rfl)
  exact ⟨by rw [Matter.getArticle, h.2.1]; rfl, by rw [Matter.getArticle, h.2.2.2]⟩

/-- C9 counterexample: with a provider that returns the same cursor (and no items)
indefinitely, `getArticle` does not surface any error: after 50 iterations the
traversal is still running (`none` = fuel exhausted, no outcome), whereas the
claim requires a `RequestFailed` outcome after one repeated-cursor detection. -/
theorem c9_constant_cursor_no_failure :
    Matter.getArticle (Matter.constCursorProvider "c") 50 "1" = none := by
  rfl

/-- C9 (amended): the code has no repeated-cursor detection — every iteration
simply increments the page number and continues whenever the cursor is present,
so a provider returning an identical cursor indefinitely makes both pagination
loops run forever (no fuel bound ever suffices), surfacing no error at all. -/
theorem c9_no_cursor_guard_loops_forever (c : String) :
    ∀ (fuel page fetched : Nat) (acc : List Matter.FeedEntry) (limit : Nat)
      (qc ac : Option Nat) (aid : String) (nid : Option Int),
      acc.length < limit →
      Matter.getArticlesLoop (Matter.constCursorProvider c) fuel page acc limit
          qc ac true fetched = none ∧
      Matter.getArticleLoop (Matter.constCursorProvider c) aid nid fuel page
          fetched = none := by
  intro fuel
  induction fuel with
  | zero => intro page fetched acc limit qc ac aid nid _; exact ⟨rfl, rfl⟩
  | succ n ih =>
    intro page fetched acc limit qc ac aid nid hlt
    constructor
    · have hrec := (ih (page + 1) (fetched + 1) acc limit
        (if page = 1 then none else qc) (if page = 1 then none else ac)
        aid nid hlt).1
      simp only [Matter.getArticlesLoop, Matter.constCursorProvider]
      simpa [hlt, Nat.not_le_of_lt hlt] using hrec
    · have hrec := (ih (page + 1) (fetched + 1) acc limit qc ac aid nid hlt).2
      simp only [Matter.getArticleLoop, Matter.constCursorProvider]
      simpa using hrec

/-- C9 amended witness: at a concrete fuel the loops are still running. -/
theorem c9_no_cursor_guard_loops_forever_witness :
    Matter.getArticlesLoop (Matter.constCursorProvider "c") 7 1 [] 10 none none
        true 0 = none ∧
    Matter.getArticleLoop (Matter.constCursorProvider "c") "1" (some 1) 7 1 0 =
      none := by
  have h := c9_no_cursor_guard_loops_forever "c" 7 1 0 [] 10 none none "1" (some 1)
    (by decide)
  exact ⟨h.1, h.2⟩

/-- C10: `getArticle` parses the requested identifier with `parseInt(articleId, 10)`,
which accepts a numeric prefix: for an identifier made of digits followed by a
non-digit tail, the lookup returns the entry whose numeric content id equals the
digit prefix's value, even though no string representation of the entry's
identifiers equals the requested string. -/
theorem c10_parseint_numeric_prefix
    (ds : List Char) (r0 : Char) (rtail : List Char) (e : Matter.FeedEntry)
    (hds : ds ≠ []) (hdig : ∀ c ∈ ds, c.isDigit = true) (hr0 : r0.isDigit = false)
    (_hid : e.id ≠ String.mk (ds ++ r0 :: rtail))
    (_hstr : toString e.contentId ≠ String.mk (ds ++ r0 :: rtail))
    (hcid : e.contentId = (Matter.digitsToNat ds : Int)) :
    Matter.parseIntBase10 (String.mk (ds ++ r0 :: rtail)) =
      some ((Matter.digitsToNat ds : Int)) ∧
    Matter.getArticle (Matter.providerOfPages [⟨[e], none, none, none⟩]) 1
        (String.mk (ds ++ r0 :: rtail)) = some (.ok (some e, 1)) := by
  have hparse := Matter.parseIntBase10_digit_run ds r0 rtail hds hdig hr0
  refine ⟨hparse, ?_⟩
  have hmatch : Matter.entryMatches (String.mk (ds ++ r0 :: rtail))
      (some ((Matter.digitsToNat ds : Int))) e = true := by
    simp [Matter.entryMatches, hcid]
  rw [Matter.getArticle, hparse]
  simp [Matter.getArticleLoop, Matter.providerOfPages, List.find?, hmatch]

/-- C10 witness: identifier `"123abc"` returns the entry with content id 123 whose
entry-id string is `"999"`. -/
theorem c10_parseint_numeric_prefix_witness :
    Matter.parseIntBase10 (String.mk (['1', '2', '3'] ++ 'a' :: ['b', 'c'])) =
      some 123 ∧
    Matter.getArticle
        (Matter.providerOfPages [⟨[⟨"999", 123⟩], none, none, none⟩]) 1
        (String.mk (['1', '2', '3'] ++ 'a' :: ['b', 'c'])) =
      some (.ok (some ⟨"999", 123⟩, 1)) := by
  have h := c10_parseint_numeric_prefix ['1', '2', '3'] 'a' ['b', 'c'] ⟨"999", 123⟩
    (by decide) (by decide) (by decide) (by decide) (by decide) (by decide)
  exact ⟨h.1, h.2⟩

/-- C5: over any well-formed cursor chain, `getArticle` traverses without any
limit short-circuit, compares each entry via `entryMatches` (string id, numeric
`parseInt` id, and stringified numeric id), and returns the first match of the
concatenated feed in page order (so with duplicate identifiers the earliest
position wins); when no entry matches it visits every page and returns `null`
wrapped in `.ok` — a normal value, not a thrown error. -/
theorem c5_article_locator_scan
    (ps : List Matter.FeedPage) (aid : String) (fuel : Nat)
    (hne : ps ≠ []) (hchain : Matter.chainPages ps) (hfuel : ps.length ≤ fuel) :
    Matter.getArticle (Matter.providerOfPages ps) fuel aid =
      some (.ok ((Matter.joinFeeds ps).find?
          (Matter.entryMatches aid (Matter.parseIntBase10 aid)),
        Matter.pagesScanned aid (Matter.parseIntBase10 aid) ps)) ∧
    ((Matter.joinFeeds ps).find?
        (Matter.entryMatches aid (Matter.parseIntBase10 aid)) = none →
      Matter.pagesScanned aid (Matter.parseIntBase10 aid) ps = ps.length) := by
  constructor
  · have hprov : ∀ k, k < ps.length →
        Matter.providerOfPages ps (1 + k) = .ok (ps.getD k default) := by
      intro k hk
      simp [Matter.providerOfPages, Nat.add_sub_cancel_left]
    have h := Matter.getArticleLoop_chain aid (Matter.parseIntBase10 aid) ps
      (Matter.providerOfPages ps) 1 0 fuel hne hchain hfuel hprov
    simpa [Matter.getArticle] using h
  · exact Matter.pagesScanned_eq_of_no_match aid (Matter.parseIntBase10 aid) ps

/-- C5 witness: with two entries sharing the numeric id 10 on different pages,
the lookup returns the first one after a single page; with an unmatched id the
lookup exhausts both pages and returns `null` via `.ok`. -/
theorem c5_article_locator_scan_witness :
    Matter.getArticle (Matter.providerOfPages
        [⟨[⟨"1", 10⟩], some "c", none, none⟩, ⟨[⟨"2", 10⟩], none, none, none⟩])
        2 "10" = some (.ok (some ⟨"1", 10⟩, 1)) ∧
    Matter.getArticle (Matter.providerOfPages
        [⟨[⟨"1", 10⟩], some "c", none, none⟩, ⟨[⟨"2", 10⟩], none, none, none⟩])
        2 "77" = some (.ok (none, 2)) := by
  constructor
  · exact (c5_article_locator_scan
      [⟨[⟨"1", 10⟩], some "c", none, none⟩, ⟨[⟨"2", 10⟩], none, none, none⟩]
      "10" 2 (by decide) ⟨rfl, rfl⟩ (by decide)).1
  · exact (c5_article_locator_scan
      [⟨[⟨"1", 10⟩], some "c", none, none⟩, ⟨[⟨"2", 10⟩], none, none, none⟩]
      "77" 2 (by decide) ⟨rfl, rfl⟩ (by decide)).1

/-- C2 (amended): over a well-formed cursor chain, `getArticles` (a) with a limit
strictly greater than the total number of items returns all items in page order
with an absent cursor after fetching every page, and (b) with a limit at most the
total returns exactly `limit` items (the prefix of the concatenation, preserving
order), exposes whatever cursor the last-fetched page carried, and fetches only
the minimal number of pages needed to accumulate `limit` items. -/
theorem c2_feed_paginator_collect
    (ps : List Matter.FeedPage) (limit fuel : Nat)
    (hne : ps ≠ []) (hchain : Matter.chainPages ps) (hpos : 0 < limit)
    (hfuel : ps.length + 1 ≤ fuel) :
    (Matter.totalItems ps < limit →
      ∃ qc2 ac2,
        Matter.getArticles (Matter.providerOfPages ps) fuel (some limit) none =
          some (.ok (⟨Matter.joinFeeds ps, none, qc2, ac2⟩, ps.length))) ∧
    (limit ≤ Matter.totalItems ps →
      (∃ qc2 ac2,
        Matter.getArticles (Matter.providerOfPages ps) fuel (some limit) none =
          some (.ok (⟨(Matter.joinFeeds ps).take limit,
            (ps.getD (Matter.pagesNeeded limit ps - 1) default).next, qc2, ac2⟩,
            Matter.pagesNeeded limit ps))) ∧
      ((Matter.joinFeeds ps).take limit).length = limit ∧
      (∀ m, m < Matter.pagesNeeded limit ps → Matter.partialItems ps m < limit)) := by
  have hprov : ∀ k, k < ps.length →
      Matter.providerOfPages ps (1 + k) = .ok (ps.getD k default) := by
    intro k hk
    simp [Matter.providerOfPages, Nat.add_sub_cancel_left]
  have hlimne : limit ≠ 0 := Nat.pos_iff_ne_zero.mp hpos
  have hunf : Matter.getArticles (Matter.providerOfPages ps) fuel (some limit) none =
      Matter.getArticlesLoop (Matter.providerOfPages ps) fuel 1 [] limit
        none none true 0 := by
    simp [Matter.getArticles, Matter.jsOrDefault, hlimne]
  constructor
  · intro htot
    obtain ⟨qc2, ac2, h⟩ := Matter.getArticlesLoop_chain_exhaust ps
      (Matter.providerOfPages ps) 1 [] limit none none 0 fuel hne hchain hprov
      (by simpa using htot) hfuel
    exact ⟨qc2, ac2, by rw [hunf, h]; simp⟩
  · intro hle
    refine ⟨?_, ?_, ?_⟩
    · obtain ⟨qc2, ac2, h⟩ := Matter.getArticlesLoop_chain_limit ps
        (Matter.providerOfPages ps) 1 [] limit none none 0 fuel hne hchain hprov
        (by simpa using hpos) (by simpa using hle) hfuel
      exact ⟨qc2, ac2, by rw [hunf, h]; simp⟩
    · rw [List.length_take]
      exact min_eq_left hle
    · intro m hm
      exact Matter.partialItems_lt_of_lt_pagesNeeded ps limit m hpos hm

/-- C2 counterexample: with the limit exactly equal to the total number of items
(two items, limit 2, last page's cursor absent) the paginator stops on the first
page and exposes that page's cursor `some "cursor"` — not the absent cursor the
claim requires for every limit that is at least the total. -/
theorem c2_limit_equal_total_cursor_not_absent :
    Matter.getArticles (Matter.providerOfPages
        [⟨[⟨"1", 1⟩, ⟨"2", 2⟩], some "cursor", none, none⟩,
          ⟨[], none, none, none⟩]) 3 (some 2) none =
      some (.ok (⟨[⟨"1", 1⟩, ⟨"2", 2⟩], some "cursor", none, none⟩, 1)) ∧
    (some "cursor" : Option String) ≠ none := by
  exact ⟨rfl, by decide⟩

/-- C2 witness: a two-page chain with items `1, 2 | 3`; with limit 5 (> total)
all three items come back with no cursor after 2 fetches, with limit 1 (≤ total)
exactly one item comes back carrying page 1's cursor after 1 fetch. -/
theorem c2_feed_paginator_collect_witness :
    (∃ qc2 ac2,
      Matter.getArticles (Matter.providerOfPages
          [⟨[⟨"1", 1⟩, ⟨"2", 2⟩], some "x", none, none⟩,
            ⟨[⟨"3", 3⟩], none, none, none⟩]) 3 (some 5) none =
        some (.ok (⟨[⟨"1", 1⟩, ⟨"2", 2⟩, ⟨"3", 3⟩], none, qc2, ac2⟩, 2))) ∧
    (∃ qc2 ac2,
      Matter.getArticles (Matter.providerOfPages
          [⟨[⟨"1", 1⟩, ⟨"2", 2⟩], some "x", none, none⟩,
            ⟨[⟨"3", 3⟩], none, none, none⟩]) 3 (some 1) none =
        some (.ok (⟨[⟨"1", 1⟩], some "x", qc2, ac2⟩, 1))) := by
  constructor
  · exact (c2_feed_paginator_collect
      [⟨[⟨"1", 1⟩, ⟨"2", 2⟩], some "x", none, none⟩, ⟨[⟨"3", 3⟩], none, none, none⟩]
      5 3 (by decide) ⟨rfl, rfl⟩ (by decide) (by decide)).1 (by decide)
  · exact ((c2_feed_paginator_collect
      [⟨[⟨"1", 1⟩, ⟨"2", 2⟩], some "x", none, none⟩, ⟨[⟨"3", 3⟩], none, none, none⟩]
      1 3 (by decide) ⟨rfl, rfl⟩ (by decide) (by decide)).2 (by decide)).1

/-- C4 counterexample: a get-article lookup that exhausts the feed without a
match produces a result with `isError: true` — the source marks the "not found"
outcome as an error result, contradicting the claim that it is a non-error
result. -/
theorem c4_not_found_flagged_as_error :
    (Matter.matterGetArticleTool (fun _ => "") "42" (.ok none)).isError = true := by
  rfl

/-- C4 (amended): a lookup with no match produces a dedicated "not found" result
whose message `Article with ID "..." not found.` distinguishes it from a
`RequestFailed` error (those render as `Error: ...`), but the result carries
`isError: true` just like error results, rather than being a non-error result. -/
theorem c4_not_found_distinct_message_but_error
    (format : Matter.FeedEntry → String) (articleId : String) :
    (Matter.matterGetArticleTool format articleId (.ok none)).isError = true ∧
    (Matter.matterGetArticleTool format articleId (.ok none)).text =
      "Article with ID \"" ++ articleId ++ "\" not found." ∧
    (∀ e : Matter.MatterError,
      (Matter.matterGetArticleTool format articleId (.ok none)).text ≠
        (Matter.matterGetArticleTool format articleId (.error e)).text) := by
  refine ⟨rfl, rfl, ?_⟩
  intro e heq
  have h1 := congrArg (fun s => s.data.head?) heq
  have h2 : (some 'A' : Option Char) = some 'E' := h1
  exact absurd h2 (by decide)

/-- C4 amended witness: concrete not-found result versus a concrete
`RequestFailed` rendering. -/
theorem c4_not_found_distinct_message_but_error_witness :
    (Matter.matterGetArticleTool (fun _ => "") "7" (.ok none)).isError = true ∧
    (Matter.matterGetArticleTool (fun _ => "") "7" (.ok none)).text ≠
      (Matter.matterGetArticleTool (fun _ => "") "7"
        (.error (.requestFailed "Bad Gateway" 502 none))).text := by
  have h := c4_not_found_distinct_message_but_error (fun _ => "") "7"
  exact ⟨h.1, h.2.2 (.requestFailed "Bad Gateway" 502 none)⟩

namespace Matter

/-- If no attempt in the window completes, the poll loop expires after exactly
its attempt budget. -/
theorem pollLoop_expired (responses : Nat → Option ExchangeResponse) :
    ∀ (fuel i : Nat),
      (∀ j, j < fuel → pollComplete (responses (i + j)) = false) →
      pollLoop responses fuel i = .expired (i + fuel) := by
  intro fuel
  induction fuel with
  | zero => intro i _; simp [pollLoop]
  | succ f ih =>
    intro i h
    have h0 : pollComplete (responses i) = false := by simpa using h 0 (by omega)
    have hshift : ∀ j, j < f → pollComplete (responses (i + 1 + j)) = false := by
      intro j hj
      have := h (j + 1) (by omega)
      have he : i + (j + 1) = i + 1 + j := by omega
      rwa [he] at this
    have hrec := ih (i + 1) hshift
    have harith : i + 1 + f = i + (f + 1) := by omega
    rw [harith] at hrec
    cases hr : responses i with
    | none => simp [pollLoop, hr, hrec]
    | some r =>
      rw [hr] at h0
      by_cases hok : r.ok
      · have hcond : (strTruthy (respAccess r) && strTruthy (respRefresh r)) = false := by
          simp [pollComplete, hok] at h0
          simpa using h0
        simp [pollLoop, hr, hok, hcond, hrec]
      · simp [pollLoop, hr, hok, hrec]

/-- If the first `K` attempts are incomplete and attempt `K` (zero-based)
completes, the loop resolves right there with the pair of that response. -/
theorem pollLoop_resolved (responses : Nat → Option ExchangeResponse) :
    ∀ (K fuel i : Nat) (r0 : ExchangeResponse), K < fuel →
      (∀ j, j < K → pollComplete (responses (i + j)) = false) →
      responses (i + K) = some r0 →
      pollComplete (responses (i + K)) = true →
      pollLoop responses fuel i =
        .resolved (i + K + 1) ((respAccess r0).getD "") ((respRefresh r0).getD "") := by
  intro K
  induction K with
  | zero =>
    intro fuel i r0 hK _ hr hc
    obtain ⟨f, rfl⟩ : ∃ f, fuel = f + 1 := ⟨fuel - 1, by omega⟩
    rw [Nat.add_zero] at hr hc
    rw [hr] at hc
    have hok : r0.ok = true := by
      simp [pollComplete] at hc
      exact hc.1
    have hcond : (strTruthy (respAccess r0) && strTruthy (respRefresh r0)) = true := by
      simp [pollComplete] at hc
      simp [hc.2.1, hc.2.2]
    simp [pollLoop, hr, hok, hcond]
  | succ K2 ih =>
    intro fuel i r0 hK h hr hc
    obtain ⟨f, rfl⟩ : ∃ f, fuel = f + 1 := ⟨fuel - 1, by omega⟩
    have h0 : pollComplete (responses i) = false := by simpa using h 0 (by omega)
    have hshift : ∀ j, j < K2 → pollComplete (responses (i + 1 + j)) = false := by
      intro j hj
      have := h (j + 1) (by omega)
      have he : i + (j + 1) = i + 1 + j := by omega
      rwa [he] at this
    have he2 : i + (K2 + 1) = i + 1 + K2 := by omega
    rw [he2] at hr hc
    have hrec := ih f (i + 1) r0 (by omega) hshift hr hc
    have harith : i + 1 + K2 + 1 = i + (K2 + 1) + 1 := by omega
    rw [harith] at hrec
    cases hq : responses i with
    | none => simp [pollLoop, hq, hrec]
    | some r =>
      rw [hq] at h0
      by_cases hok : r.ok
      · have hcond : (strTruthy (respAccess r) && strTruthy (respRefresh r)) = false := by
          simp [pollComplete, hok] at h0
          simpa using h0
        simp [pollLoop, hq, hok, hcond, hrec]
      · simp [pollLoop, hq, hok, hrec]

end Matter

/-- C7: the QR polling loop makes at most 120 attempts: if the first `K < 120`
attempts are "pending" (thrown fetch, non-ok response, or a body missing either
token) and attempt `K+1` returns a complete credential pair, the flow resolves
exactly once at attempt `K+1` with that pair and makes no further polls; if no
attempt ever completes, the flow expires after exactly 120 attempts (the timeout
message shown to the user, not a hard error).  The fixed interval is the
source's literal 1000 ms (`pollIntervalMs`), giving the 2-minute bound. -/
theorem c7_qr_poll_bounded
    (responses : Nat → Option Matter.ExchangeResponse) :
    ((∀ j, j < Matter.pollAttempts → Matter.pollComplete (responses j) = false) →
      Matter.pollForTokens responses = .expired Matter.pollAttempts) ∧
    (∀ K r0, K < Matter.pollAttempts →
      (∀ j, j < K → Matter.pollComplete (responses j) = false) →
      responses K = some r0 → Matter.pollComplete (responses K) = true →
      Matter.pollForTokens responses =
        .resolved (K + 1) ((Matter.respAccess r0).getD "")
          ((Matter.respRefresh r0).getD "")) := by
  constructor
  · intro h
    have := Matter.pollLoop_expired responses Matter.pollAttempts 0
      (by intro j hj; simpa using h j hj)
    simpa [Matter.pollForTokens] using this
  · intro K r0 hK h hr hc
    have := Matter.pollLoop_resolved responses K Matter.pollAttempts 0 r0 hK
      (by intro j hj; simpa using h j hj) (by simpa using hr) (by simpa using hc)
    simpa [Matter.pollForTokens] using this

/-- C7 witness: three pending polls then a complete pair resolves at attempt 4;
an endpoint that never completes expires after 120 attempts. -/
theorem c7_qr_poll_bounded_witness :
    Matter.pollForTokens (fun i =>
      if i < 3 then some ⟨true, none, none, none, none⟩
      else some ⟨true, some "a", none, some "r", none⟩) =
      .resolved 4 "a" "r" ∧
    Matter.pollForTokens (fun _ => none) = .expired 120 := by
  constructor
  · exact (c7_qr_poll_bounded (fun i =>
      if i < 3 then some ⟨true, none, none, none, none⟩
      else some ⟨true, some "a", none, some "r", none⟩)).2 3
      ⟨true, some "a", none, some "r", none⟩ (by decide) (by decide) (by decide)
      (by decide)
  · exact (c7_qr_poll_bounded (fun _ => none)).1 (by intro j _; rfl)

namespace Matter

/-- `String.mk` inverts `String.data`. -/
theorem mk_data (s : String) : String.mk s.data = s := rfl

/-- `String.data` of `String.mk`. -/
theorem data_mk (cs : List Char) : (String.mk cs).data = cs := rfl

/-- Consuming a literal prefix succeeds and leaves the remainder. -/
theorem dropLiteral_append :
    ∀ (pat rest : List Char), dropLiteral pat (pat ++ rest) = some rest := by
  intro pat
  induction pat with
  | nil => intro rest; rfl
  | cons p ps ih => intro rest; simp [dropLiteral, ih]

/-- Printable characters other than quote and backslash are not escaped. -/
theorem jsonEscapeChar_printable (c : Char) (h32 : 32 ≤ c.toNat)
    (hq : c ≠ '"') (hb : c ≠ '\\') : jsonEscapeChar c = [c] := by
  have h1 : c ≠ '\x08' := by rintro rfl; exact absurd h32 (by decide)
  have h2 : c ≠ '\t' := by rintro rfl; exact absurd h32 (by decide)
  have h3 : c ≠ '\n' := by rintro rfl; exact absurd h32 (by decide)
  have h4 : c ≠ '\x0c' := by rintro rfl; exact absurd h32 (by decide)
  have h5 : c ≠ '\r' := by rintro rfl; exact absurd h32 (by decide)
  have h6 : ¬ c.toNat < 32 := by omega
  simp [jsonEscapeChar, hq, hb, h1, h2, h3, h4, h5, h6]

/-- Parsing a string-literal body inverts escaping on printable content. -/
theorem parseJsonStringBody_escape :
    ∀ (s rest : List Char), (∀ c ∈ s, 32 ≤ c.toNat) →
      parseJsonStringBody (jsonEscape s ++ '"' :: rest) = some (s, rest) := by
  intro s
  induction s with
  | nil =>
    intro rest _
    have h0 : jsonEscape [] = [] := rfl
    rw [h0, List.nil_append, parseJsonStringBody.eq_def]
    simp
  | cons c t ih =>
    intro rest hall
    have hc32 : 32 ≤ c.toNat := hall c (List.mem_cons_self c t)
    have ht : ∀ d ∈ t, 32 ≤ d.toNat := fun d hd => hall d (List.mem_cons_of_mem c hd)
    have hesc : jsonEscape (c :: t) = jsonEscapeChar c ++ jsonEscape t := by
      simp [jsonEscape]
    by_cases hq : c = '"'
    · subst hq
      rw [hesc]
      have h1 : jsonEscapeChar '"' = ['\\', '"'] := by simp [jsonEscapeChar]
      rw [h1]
      show parseJsonStringBody ('\\' :: '"' :: (jsonEscape t ++ '"' :: rest)) = _
      rw [parseJsonStringBody.eq_def]
      simp [ih rest ht]
    · by_cases hb : c = '\\'
      · subst hb
        rw [hesc]
        have h1 : jsonEscapeChar '\\' = ['\\', '\\'] := by simp [jsonEscapeChar]
        rw [h1]
        show parseJsonStringBody ('\\' :: '\\' :: (jsonEscape t ++ '"' :: rest)) = _
        rw [parseJsonStringBody.eq_def]
        simp [ih rest ht]
      · rw [hesc, jsonEscapeChar_printable c hc32 hq hb]
        show parseJsonStringBody (c :: (jsonEscape t ++ '"' :: rest)) = _
        rw [parseJsonStringBody.eq_def]
        simp [hq, hb, ih rest ht]

/-- The shape parser inverts the serializer on printable values. -/
theorem jsonParseTokens_stringify (k1 k2 a r : List Char)
    (ha : ∀ c ∈ a, 32 ≤ c.toNat) (hr : ∀ c ∈ r, 32 ≤ c.toNat) :
    jsonParseTokens k1 k2 (jsonStringifyTokens k1 k2 a r) = some (a, r) := by
  have hshape : jsonStringifyTokens k1 k2 a r =
      (['{', '"'] ++ k1 ++ ['"', ':', '"']) ++
        (jsonEscape a ++ '"' :: (([',', '"'] ++ k2 ++ ['"', ':', '"']) ++
          (jsonEscape r ++ '"' :: ['}']))) := by
    simp [jsonStringifyTokens, List.append_assoc]
  have h1 := parseJsonStringBody_escape a
    (([',', '"'] ++ k2 ++ ['"', ':', '"']) ++ (jsonEscape r ++ '"' :: ['}'])) ha
  have h2 := parseJsonStringBody_escape r ['}'] hr
  rw [hshape]
  simp only [jsonParseTokens, dropLiteral_append, h1, h2]
  simp

/-- The alphabet lookup inverts the digit map on 6-bit values. -/
theorem b64Val_b64Char : ∀ n, n < 64 → b64Val (b64Char n) = some n := by decide

/-- Padding is skipped by the value lookup. -/
theorem b64Val_pad : b64Val '=' = none := by decide

/-- Base64 decoding inverts encoding on byte sequences. -/
theorem base64_roundtrip : ∀ bs : List Nat, (∀ b ∈ bs, b < 256) →
    base64decode (base64encode bs) = bs := by
  intro bs
  induction bs using base64encode.induct with
  | case1 => intro _; rfl
  | case2 b1 =>
    intro h
    have hb1 : b1 < 256 := h b1 (by simp)
    have h1 := b64Val_b64Char (b1 / 4) (by omega)
    have h2 := b64Val_b64Char (b1 % 4 * 16) (by omega)
    simp [base64decode, base64encode, base64decodeVals, List.filterMap_cons,
      h1, h2, b64Val_pad]
    omega
  | case3 b1 b2 =>
    intro h
    have hb1 : b1 < 256 := h b1 (by simp)
    have hb2 : b2 < 256 := h b2 (by simp)
    have h1 := b64Val_b64Char (b1 / 4) (by omega)
    have h2 := b64Val_b64Char (b1 % 4 * 16 + b2 / 16) (by omega)
    have h3 := b64Val_b64Char (b2 % 16 * 4) (by omega)
    simp [base64decode, base64encode, base64decodeVals, List.filterMap_cons,
      h1, h2, h3, b64Val_pad]
    omega
  | case4 b1 b2 b3 t ih =>
    intro h
    have hb1 : b1 < 256 := h b1 (by simp)
    have hb2 : b2 < 256 := h b2 (by simp)
    have hb3 : b3 < 256 := h b3 (by simp)
    have ht : ∀ b ∈ t, b < 256 := fun b hb => h b (by simp [hb])
    have h1 := b64Val_b64Char (b1 / 4) (by omega)
    have h2 := b64Val_b64Char (b1 % 4 * 16 + b2 / 16) (by omega)
    have h3 := b64Val_b64Char (b2 % 16 * 4 + b3 / 64) (by omega)
    have h4 := b64Val_b64Char (b3 % 64) (by omega)
    have hrec := ih ht
    simp only [base64decode] at hrec
    simp only [base64encode, base64decode, List.filterMap_cons, h1, h2, h3, h4,
      base64decodeVals, hrec, List.cons.injEq, and_true]
    omega

/-- UTF-8 encoding of ASCII text is the identity on code points. -/
theorem utf8Encode_ascii : ∀ cs : List Char, (∀ c ∈ cs, c.toNat < 128) →
    utf8Encode cs = cs.map Char.toNat := by
  intro cs
  induction cs with
  | nil => intro _; rfl
  | cons c t ih =>
    intro h
    have hc : c.toNat < 128 := h c (List.mem_cons_self c t)
    have ih2 := ih (fun d hd => h d (List.mem_cons_of_mem c hd))
    simp only [utf8Encode, List.map_cons, List.flatten_cons] at ih2 ⊢
    rw [ih2, utf8EncodeChar]
    simp [hc]

/-- UTF-8 decoding of ASCII bytes restores the characters. -/
theorem utf8Decode_ascii : ∀ cs : List Char, (∀ c ∈ cs, c.toNat < 128) →
    utf8Decode (cs.map Char.toNat) = cs := by
  intro cs
  induction cs with
  | nil => intro _; rfl
  | cons c t ih =>
    intro h
    have hc : c.toNat < 128 := h c (List.mem_cons_self c t)
    have ih2 := ih (fun d hd => h d (List.mem_cons_of_mem c hd))
    have hcl : utf8ClassifyLead c.toNat = .ascii c.toNat := by
      simp [utf8ClassifyLead, hc]
    simp only [utf8Decode] at ih2 ⊢
    rw [List.map_cons, utf8DecodeGo.eq_def]
    simp [hcl, Char.ofNat_toNat, ih2]

/-- Escaped printable text stays below code point 128. -/
theorem jsonEscape_ascii : ∀ s : List Char, (∀ c ∈ s, 32 ≤ c.toNat ∧ c.toNat ≤ 126) →
    ∀ d ∈ jsonEscape s, d.toNat < 128 := by
  intro s
  induction s with
  | nil => intro _ d hd; simp [jsonEscape] at hd
  | cons c t ih =>
    intro h d hd
    have hc := h c (List.mem_cons_self c t)
    have ht := fun e he => h e (List.mem_cons_of_mem c he)
    have hesc : jsonEscape (c :: t) = jsonEscapeChar c ++ jsonEscape t := by
      simp [jsonEscape]
    rw [hesc, List.mem_append] at hd
    rcases hd with hd | hd
    · by_cases hq : c = '"'
      · subst hq
        have h1 : jsonEscapeChar '"' = ['\\', '"'] := by simp [jsonEscapeChar]
        rw [h1] at hd
        have h2 : d = '\\' ∨ d = '"' := by simpa using hd
        rcases h2 with rfl | rfl <;> decide
      · by_cases hb : c = '\\'
        · subst hb
          have h1 : jsonEscapeChar '\\' = ['\\', '\\'] := by simp [jsonEscapeChar]
          rw [h1] at hd
          have h2 : d = '\\' := by simpa using hd
          subst h2
          decide
        · rw [jsonEscapeChar_printable c hc.1 hq hb] at hd
          have h2 : d = c := by simpa using hd
          subst h2
          omega
    · exact ih ht d hd

/-- The serialized token object over ASCII keys and printable values is ASCII. -/
theorem jsonStringifyTokens_ascii (k1 k2 a r : List Char)
    (hk1 : ∀ c ∈ k1, c.toNat < 128) (hk2 : ∀ c ∈ k2, c.toNat < 128)
    (ha : ∀ c ∈ a, 32 ≤ c.toNat ∧ c.toNat ≤ 126)
    (hr : ∀ c ∈ r, 32 ≤ c.toNat ∧ c.toNat ≤ 126) :
    ∀ d ∈ jsonStringifyTokens k1 k2 a r, d.toNat < 128 := by
  have hL1 : ∀ d ∈ (['{', '"'] : List Char), d.toNat < 128 := by decide
  have hL2 : ∀ d ∈ (['"', ':', '"'] : List Char), d.toNat < 128 := by decide
  have hL3 : ∀ d ∈ (['"', ',', '"'] : List Char), d.toNat < 128 := by decide
  have hL5 : ∀ d ∈ (['"', '}'] : List Char), d.toNat < 128 := by decide
  have hEa := jsonEscape_ascii a ha
  have hEr := jsonEscape_ascii r hr
  simp only [jsonStringifyTokens]
  exact List.forall_mem_append.mpr ⟨List.forall_mem_append.mpr
    ⟨List.forall_mem_append.mpr ⟨List.forall_mem_append.mpr
      ⟨List.forall_mem_append.mpr ⟨List.forall_mem_append.mpr
        ⟨List.forall_mem_append.mpr ⟨List.forall_mem_append.mpr
          ⟨hL1, hk1⟩, hL2⟩, hEa⟩, hL3⟩, hk2⟩, hL2⟩, hEr⟩, hL5⟩

end Matter

/-- C3 (amended): for nonempty token pairs made of printable ASCII characters
(code points 32–126, including encoding-sensitive characters such as quotes,
backslashes, plus, slash and equals), encoding the pair into the authorization
code, decoding that code at the token endpoint, re-encoding it as the combined
bearer access_token and decoding that bearer at the MCP resource endpoint
yields back exactly the original pair.  Beyond that range the chain is not a
round-trip: `btoa` throws on code points above U+00FF and empty tokens are
rejected as falsy (see the counterexample). -/
theorem c3_qr_envelope_roundtrip
    (a r : String) (hane : a.data ≠ []) (hrne : r.data ≠ [])
    (ha : ∀ c ∈ a.data, 32 ≤ c.toNat ∧ c.toNat ≤ 126)
    (hr : ∀ c ∈ r.data, 32 ≤ c.toNat ∧ c.toNat ≤ 126) :
    Matter.qrTokenRoundTrip a r = some ⟨a, r⟩ := by
  have hk1 : ∀ c ∈ "access_token".data, c.toNat < 128 := by decide
  have hk2 : ∀ c ∈ "refresh_token".data, c.toNat < 128 := by decide
  have hk3 : ∀ c ∈ "accessToken".data, c.toNat < 128 := by decide
  have hk4 : ∀ c ∈ "refreshToken".data, c.toNat < 128 := by decide
  have hJ1 := Matter.jsonStringifyTokens_ascii "access_token".data
    "refresh_token".data a.data r.data hk1 hk2 ha hr
  have hJ2 := Matter.jsonStringifyTokens_ascii "accessToken".data
    "refreshToken".data a.data r.data hk3 hk4 ha hr
  have hall : (Matter.jsonStringifyTokens "access_token".data "refresh_token".data
      a.data r.data).all (fun c => c.toNat ≤ 255) = true := by
    rw [List.all_eq_true]
    intro c hc
    have := hJ1 c hc
    simp only [decide_eq_true_eq]
    omega
  have hA : Matter.encodeAuthCode a r = some (String.mk (Matter.base64encode
      ((Matter.jsonStringifyTokens "access_token".data "refresh_token".data
        a.data r.data).map Char.toNat))) := by
    simp [Matter.encodeAuthCode, Matter.btoa, hall]
  have hbytes1 : ∀ b ∈ (Matter.jsonStringifyTokens "access_token".data
      "refresh_token".data a.data r.data).map Char.toNat, b < 256 := by
    intro b hb
    obtain ⟨c, hc, rfl⟩ := List.mem_map.mp hb
    have := hJ1 c hc
    omega
  have hdec1 := Matter.base64_roundtrip _ hbytes1
  have hutf1 := Matter.utf8Decode_ascii _ hJ1
  have hparse1 := Matter.jsonParseTokens_stringify "access_token".data
    "refresh_token".data a.data r.data (fun c hc => (ha c hc).1)
    (fun c hc => (hr c hc).1)
  have hB : Matter.tokenEndpoint (String.mk (Matter.base64encode
      ((Matter.jsonStringifyTokens "access_token".data "refresh_token".data
        a.data r.data).map Char.toNat))) =
      some (String.mk (Matter.base64encode (Matter.utf8Encode
        (Matter.jsonStringifyTokens "accessToken".data "refreshToken".data
          a.data r.data))), String.mk r.data) := by
    simp only [Matter.tokenEndpoint, Matter.data_mk, hdec1, hutf1, hparse1]
    simp [hane, hrne]
  have henc2 : Matter.utf8Encode (Matter.jsonStringifyTokens "accessToken".data
      "refreshToken".data a.data r.data) =
      (Matter.jsonStringifyTokens "accessToken".data "refreshToken".data
        a.data r.data).map Char.toNat :=
    Matter.utf8Encode_ascii _ hJ2
  have hbytes2 : ∀ b ∈ (Matter.jsonStringifyTokens "accessToken".data
      "refreshToken".data a.data r.data).map Char.toNat, b < 256 := by
    intro b hb
    obtain ⟨c, hc, rfl⟩ := List.mem_map.mp hb
    have := hJ2 c hc
    omega
  have hdec2 := Matter.base64_roundtrip _ hbytes2
  have hutf2 := Matter.utf8Decode_ascii _ hJ2
  have hparse2 := Matter.jsonParseTokens_stringify "accessToken".data
    "refreshToken".data a.data r.data (fun c hc => (ha c hc).1)
    (fun c hc => (hr c hc).1)
  have hC : Matter.getTokensFromBearer (String.mk (Matter.base64encode
      (Matter.utf8Encode (Matter.jsonStringifyTokens "accessToken".data
        "refreshToken".data a.data r.data)))) = some ⟨a, r⟩ := by
    simp only [Matter.getTokensFromBearer, Matter.data_mk, henc2, hdec2, hutf2,
      hparse2]
    simp [hane, hrne, Matter.mk_data]
  simp only [Matter.qrTokenRoundTrip, hA, hB, hC]

/-- C3 counterexample: the round-trip fails outside ASCII and for empty tokens —
an access token containing '€' (U+20AC, a printable character) makes `btoa`
throw `InvalidCharacterError` while packaging the authorization code, and an
empty access token is rejected as falsy by the token endpoint; in both cases
the pipeline yields no pair at all instead of the original one. -/
theorem c3_roundtrip_fails_outside_ascii :
    Matter.qrTokenRoundTrip "€a" "r" = none ∧
    Matter.qrTokenRoundTrip "" "r" = none := by
  constructor
  · rfl
  · rfl

/-- C3 amended witness: a pair containing quotes, a backslash, plus, slash and
equals round-trips exactly. -/
theorem c3_qr_envelope_roundtrip_witness :
    Matter.qrTokenRoundTrip "ab\"c\\d+" "x/y=z" = some ⟨"ab\"c\\d+", "x/y=z"⟩ :=
  c3_qr_envelope_roundtrip "ab\"c\\d+" "x/y=z" (by decide) (by decide)
    (by decide) (by decide)
